import Mathlib

/-!
Shallow embedding of the capture-analysis pipeline of the
crazytrip_crazydex_capture service, together with theorems checking its
natural-language specification.

Conventions of the embedding:
- serde_json values become the inductive type Json below; JSON numbers are
  modelled as rationals.
- Rust strings become Lean strings; Rust byte indices into response text are
  modelled as character indices (all concrete inputs used are ASCII, where
  the two coincide).
- The database and the object store are external collaborators: reads are
  oracle fields of an environment record, writes are explicit effects folded
  over an explicit state (DB writes are modelled as always succeeding; no
  claim under scrutiny concerns a failing DB write).
- Fallible Rust code returns Except; a Rust panic is a distinct outcome
  constructor where it can occur.
-/

/-! ## JSON values (serde_json::Value) -/

inductive Json where
  | null : Json
  | bool : Bool → Json
  | num : ℚ → Json
  | str : String → Json
  | arr : List Json → Json
  | obj : List (String × Json) → Json

/-- Model of serde_json Value::get on an object: the value at the first
matching key, none on non-objects. -/
def Json.get (j : Json) (key : String) : Option Json :=
  match j with
  | .obj kvs => (kvs.find? (fun kv => kv.1 == key)).map (fun kv => kv.2)
  | _ => none

def Json.asStr : Json → Option String
  | .str s => some s
  | _ => none

def Json.asNum : Json → Option ℚ
  | .num q => some q
  | _ => none

def Json.asBool : Json → Option Bool
  | .bool b => some b
  | _ => none

def Json.asArray : Json → Option (List Json)
  | .arr xs => some xs
  | _ => none

def Json.isObject : Json → Bool
  | .obj _ => true
  | _ => false

def Json.isNull : Json → Bool
  | .null => true
  | _ => false

/-- Model of Map::is_empty on the underlying object map (callers only use it
after isObject holds). -/
def Json.objIsEmpty : Json → Bool
  | .obj kvs => kvs.isEmpty
  | _ => false

/-! ## String helpers (Rust std semantics) -/

/-- Model of Rust str::contains for a literal pattern. -/
def strContains (s pat : String) : Bool :=
  decide (pat.data <:+: s.data)

/-- Model of Rust str::to_lowercase (character-wise lowering; the concrete
inputs in this development are ASCII, where this matches Rust). -/
def rustToLowercase (s : String) : String :=
  String.mk (s.data.map Char.toLower)

/-- Model of Rust str::trim: drop leading and trailing whitespace (the
concrete inputs in this development only carry ASCII spaces). -/
def rustTrim (s : String) : String :=
  String.mk (((s.data.dropWhile Char.isWhitespace).reverse.dropWhile
    Char.isWhitespace).reverse)

/-! ## Failure classification (workers/mod.rs lines 61-63 and 165-167)

The worker classifies an error transient exactly when its text contains
one of the three marker substrings. -/

def isTransientError (msg : String) : Bool :=
  strContains msg "503" || strContains msg "overloaded" || strContains msg "UNAVAILABLE"

/-! ## Result extraction (ai/mod.rs extract_metadata, workers/mod.rs lines 194-219) -/

/-- Model of AIService::extract_metadata: category with default UNKNOWN,
confidence with default 0. -/
def extract_metadata (v : Json) : String × ℚ :=
  (((v.get "category").bind Json.asStr).getD "UNKNOWN",
   ((v.get "confidence").bind Json.asNum).getD 0)

/-- Difficulty extraction in analyze_capture: default EASY. -/
def extractDifficulty (v : Json) : String :=
  ((v.get "difficulty").bind Json.asStr).getD "EASY"

/-- Verified-flag extraction in analyze_capture: default false. -/
def extractVerified (v : Json) : Bool :=
  ((v.get "verified").bind Json.asBool).getD false

/-- Tag normalization applied to each raw tag string: to_lowercase then trim. -/
def normalizeTag (s : String) : String :=
  rustTrim (rustToLowercase s)

/-- Tags extraction in analyze_capture: array of strings, each lower-cased and
trimmed, empty strings discarded, default empty list. -/
def extractTags (v : Json) : List String :=
  (((v.get "tags").bind Json.asArray).map (fun arr =>
    (arr.filterMap (fun x => (Json.asStr x).map normalizeTag)).filter
      (fun s => !s.isEmpty))).getD []

/-! ## JSON extraction from the vision response text (ai/mod.rs lines 364-380)

The client takes the first opening brace (find, defaulting to 0), the last
closing brace (rfind, defaulting to the text length) and slices the text
inclusively between them. The serde_json parser is an external collaborator
and is passed as an oracle. The inclusive slice text[start..=end] panics in
Rust when end is not below the length; the model keeps that outcome
explicit. -/

def firstBraceIdx (l : List Char) : Option Nat :=
  l.findIdx? (fun c => c == '{')

def lastBraceIdx (l : List Char) : Option Nat :=
  (l.reverse.findIdx? (fun c => c == '}')).map (fun k => l.length - 1 - k)

inductive ExtractOutcome where
  | ok : Json → ExtractOutcome
  | failed : String → ExtractOutcome
  | panicked : ExtractOutcome

/-- Model of the response-text-to-document step at the end of
AIService::analyze_image. -/
def extract_json_from_text (parse : String → Option Json) (text : String) :
    ExtractOutcome :=
  let l := text.data
  let js := (firstBraceIdx l).getD 0
  let je := (lastBraceIdx l).getD l.length
  if js ≥ je then .failed "No valid JSON in Gemini response"
  else if je < l.length then
    match parse (String.mk ((l.drop js).take (je + 1 - js))) with
    | some v => .ok v
    | none => .failed "Failed to parse JSON"
  else .panicked

/-! ## Object-key extraction (workers/mod.rs extract_object_key) -/

/-- Model of Rust str::split on a single separator character: consecutive
separators and boundary separators produce empty fields. -/
def splitOnChar (sep : Char) : List Char → List (List Char)
  | [] => [[]]
  | c :: rest =>
    let r := splitOnChar sep rest
    if c == sep then [] :: r
    else
      match r with
      | [] => [[c]]
      | h :: t => (c :: h) :: t

def extract_object_key (url : String) : Except String String :=
  let parts := splitOnChar '/' url.data
  if parts.length ≥ 4 then
    .ok (String.mk (List.intercalate ['/'] (parts.drop 3)))
  else .error "Invalid S3 URL format"

/-! ## Solar geometry (ai/mod.rs calculate_sun_position)

The function is pure f64 arithmetic; it is embedded over the reals. The
timestamp is represented by the calendar components the Rust code reads from
the DateTime value. Rust float remainder truncates toward zero. -/

structure UtcMoment where
  year : ℝ
  month : ℝ
  day : ℝ
  hour : ℝ
  minute : ℝ

/-- Truncation toward zero on the reals, the rounding used by the Rust float
remainder operator. -/
noncomputable def rtrunc (x : ℝ) : ℝ :=
  if 0 ≤ x then (⌊x⌋ : ℝ) else (⌈x⌉ : ℝ)

/-- Model of the Rust f64 remainder operator. -/
noncomputable def fmodRust (a b : ℝ) : ℝ :=
  a - b * rtrunc (a / b)

/-- Four-quadrant arctangent, atan2 y x, modelled as the argument of the
complex number x + y i. -/
noncomputable def atan2 (y x : ℝ) : ℝ :=
  Complex.arg ⟨x, y⟩

/-- Model of Rust f64::to_radians. -/
noncomputable def toRad (d : ℝ) : ℝ :=
  d * (Real.pi / 180)

/-- Model of Rust f64::to_degrees. -/
noncomputable def toDeg (r : ℝ) : ℝ :=
  r * (180 / Real.pi)

structure SunPosition where
  azimuthDeg : ℝ
  elevationDeg : ℝ
  isDaylight : Prop

/-- Embedding of AIService::calculate_sun_position, line for line. -/
noncomputable def calculate_sun_position (lat lon : ℝ) (ts : UtcMoment) : SunPosition :=
  let y := ts.year
  let m := ts.month
  let d := ts.day
  let h := ts.hour + ts.minute / 60
  let jd := 367 * y - (⌊7 * (y + (⌊(m + 9) / 12⌋ : ℝ)) / 4⌋ : ℝ)
    + (⌊275 * m / 9⌋ : ℝ) + d + 1721013.5 + h / 24
  let n := jd - 2451545.0
  let l := fmodRust (280.460 + 0.9856474 * n) 360
  let g := toRad (fmodRust (357.528 + 0.9856003 * n) 360)
  let lam := toRad (l + 1.915 * Real.sin g + 0.020 * Real.sin (2 * g))
  let eps := toRad (23.439 - 0.0000004 * n)
  let ra := atan2 (Real.cos lam) (Real.cos eps * Real.sin lam)
  let dec := Real.arcsin (Real.sin eps * Real.sin lam)
  let gmst := fmodRust (280.460 + 360.98564724 * n) 360
  let lst := toRad (fmodRust (gmst + lon) 360)
  let ha := lst - ra
  let latRad := toRad lat
  let elevation := Real.arcsin
    (Real.sin latRad * Real.sin dec + Real.cos latRad * Real.cos dec * Real.cos ha)
  let az0 := Real.arccos
    ((Real.sin dec - Real.sin latRad * Real.sin elevation)
      / (Real.cos latRad * Real.cos elevation))
  let azimuth := if Real.sin ha > 0 then 2 * Real.pi - az0 else az0
  let elevationDeg := toDeg elevation
  let azimuthDeg := toDeg azimuth
  ⟨azimuthDeg, elevationDeg, elevationDeg > -6.0⟩

/-- Algorithm of spec section 4.1, written from the numbered steps of the
spec text, to be compared with the embedding of the source. -/
noncomputable def specCalculateSunPosition (lat lon : ℝ) (ts : UtcMoment) : SunPosition :=
  let h := ts.hour + ts.minute / 60
  let jd := 367 * ts.year - (⌊7 * (ts.year + (⌊(ts.month + 9) / 12⌋ : ℝ)) / 4⌋ : ℝ)
    + (⌊275 * ts.month / 9⌋ : ℝ) + ts.day + 1721013.5 + h / 24
  let n := jd - 2451545.0
  let meanLongitude := fmodRust (280.460 + 0.9856474 * n) 360
  let meanAnomaly := toRad (fmodRust (357.528 + 0.9856003 * n) 360)
  let eclipticLongitude := toRad (meanLongitude + 1.915 * Real.sin meanAnomaly
    + 0.020 * Real.sin (2 * meanAnomaly))
  let obliquity := toRad (23.439 - 0.0000004 * n)
  let ra := atan2 (Real.cos eclipticLongitude)
    (Real.cos obliquity * Real.sin eclipticLongitude)
  let dec := Real.arcsin (Real.sin obliquity * Real.sin eclipticLongitude)
  let gmst := fmodRust (280.460 + 360.98564724 * n) 360
  let lst := toRad (fmodRust (gmst + lon) 360)
  let hourAngle := lst - ra
  let latRad := toRad lat
  let elev := Real.arcsin (Real.sin latRad * Real.sin dec
    + Real.cos latRad * Real.cos dec * Real.cos hourAngle)
  let az0 := Real.arccos ((Real.sin dec - Real.sin latRad * Real.sin elev)
    / (Real.cos latRad * Real.cos elev))
  let azimuth := if Real.sin hourAngle > 0 then 2 * Real.pi - az0 else az0
  ⟨toDeg azimuth, toDeg elev, toDeg elev > -6.0⟩

/-! ## Worker pipeline model (workers/mod.rs)

The per-capture pipeline analyze_capture is embedded as a pure function of
an environment holding the oracle answers of the external collaborators: the
loaded capture row, the object-store download, the vision client (answer of
the k-th call within the inline retry loop), and the whole best-effort
thumbnail step (decode, resize, upload) collapsed to its resulting URL or
error. Its output is the surfaced result together with the ordered list of
effects it performed; DB effects are interpreted over an explicit state. -/

structure Capture where
  vision_result : Option Json
  image_url : String

inductive QStatus where
  | pending : QStatus
  | completed : QStatus
deriving DecidableEq

/-- Columns of the captures row that the pipeline writes. -/
structure CaptureRow where
  vision_result : Option Json
  category : Option String
  confidence : Option ℚ
  difficulty : Option String
  verified : Option Bool
  tags : Option (List String)
  thumbnail_url : Option String

/-- Queue entry of the capture plus its capture row and tag join rows. -/
structure CapState where
  qStatus : QStatus
  qAttempts : Option ℤ
  row : CaptureRow
  tagLinks : List String

inductive Eff where
  | markCompleted : Eff
  | incAttempts : Eff
  | updateAnalysis : Json → String → ℚ → String → Bool → Option (List String) → Eff
  | deleteTagLinks : Eff
  | linkTag : String → Eff
  | setThumb : String → Eff
  | visionCall : Eff
  | downloadCall : Eff
  | sleep : ℕ → Eff

structure WorkerEnv where
  capture : Option Capture
  download : Except String (List ℕ)
  vision : ℕ → Except String Json
  thumb : Except String String

/-- Inline vision retry loop of analyze_capture (workers/mod.rs lines
145-183): i is the index of the next call (the Rust attempts counter minus
one), fuel the number of calls still allowed; the initial call is
runVision oracle 0 3 since max_attempts is 3. A failed call is retried only
while it is classified transient and the attempts counter is still below
max_attempts, after sleeping 2 to the power (attempts - 1) times 5 seconds. -/
def runVision (oracle : ℕ → Except String Json) : ℕ → ℕ → Except String Json × List Eff
  | _, 0 => (.error "AI analysis returned null", [])
  | i, Nat.succ fuel =>
    match oracle i with
    | .ok v => (.ok v, [Eff.visionCall])
    | .error e =>
      if isTransientError e && fuel != 0 then
        let r := runVision oracle (i + 1) fuel
        (r.1, Eff.visionCall :: Eff.sleep (2 ^ i * 5) :: r.2)
      else (.error e, [Eff.visionCall])

/-- Effects of DatabaseService::save_capture_tags: delete all join rows of
the capture, then upsert and link each tag in order. -/
def save_capture_tags_effs (tags : List String) : List Eff :=
  Eff.deleteTagLinks :: tags.map Eff.linkTag

/-- Effects of the success path of analyze_capture after the vision document
v is obtained (workers/mod.rs lines 194-261): persist the analysis columns,
save the tags when the extracted list is non-empty, mark the queue entry
completed, then best-effort thumbnail. Modelled from the spec: the tags
argument of the update_capture_analysis call is absent at the call site in
workers/mod.rs (the call does not compile against the seven-parameter
signature in database/mod.rs); following the spec wording that the tags
column is persisted, the extracted tags are passed. -/
def successEffs (v : Json) (thumb : Except String String) : List Eff :=
  Eff.updateAnalysis v (extract_metadata v).1 (extract_metadata v).2
      (extractDifficulty v) (extractVerified v) (some (extractTags v)) ::
    ((if (extractTags v).isEmpty then [] else save_capture_tags_effs (extractTags v)) ++
      (Eff.markCompleted ::
        (match thumb with
         | .ok url => [Eff.setThumb url]
         | .error _ => [])))

/-- Tail of analyze_capture once the capture row is loaded and found not yet
analyzed: key extraction (malformed key returns success with no effect),
image download (a failure is logged and returns success), then the inline
vision retry loop and the success path. -/
def analyzeBody (env : WorkerEnv) (c : Capture) : Except String Unit × List Eff :=
  match extract_object_key c.image_url with
  | .error _ => (.ok (), [])
  | .ok _ =>
    match env.download with
    | .error _ => (.ok (), [Eff.downloadCall])
    | .ok _ =>
      match runVision env.vision 0 3 with
      | (.error e, ve) => (.error e, Eff.downloadCall :: ve)
      | (.ok v, ve) =>
        if v.isNull then (.error "AI analysis returned null", Eff.downloadCall :: ve)
        else (.ok (), Eff.downloadCall :: (ve ++ successEffs v env.thumb))

/-- Embedding of AnalysisWorker::analyze_capture: missing capture is skipped;
a present vision_result that is a non-empty object, or not an object at all,
marks the entry completed; otherwise the analysis body runs. -/
def analyze_capture (env : WorkerEnv) : Except String Unit × List Eff :=
  match env.capture with
  | none => (.ok (), [])
  | some c =>
    match c.vision_result with
    | some v =>
      if v.isObject then
        if v.objIsEmpty then analyzeBody env c
        else (.ok (), [Eff.markCompleted])
      else (.ok (), [Eff.markCompleted])
    | none => analyzeBody env c

/-- Interpretation of one effect on the state: markCompleted sets only the
status, incAttempts adds one to the attempts column (SQL attempts + 1),
updateAnalysis overwrites the analysis columns, deleteTagLinks and linkTag
mirror the delete-then-upsert-and-link SQL (the join-table insert is ON
CONFLICT DO NOTHING), setThumb writes the thumbnail URL; calls and sleeps do
not touch the database. -/
def applyEff (st : CapState) : Eff → CapState
  | .markCompleted => { st with qStatus := QStatus.completed }
  | .incAttempts => { st with qAttempts := st.qAttempts.map (fun a => a + 1) }
  | .updateAnalysis v cat conf diff ver tags =>
      { st with row := { st.row with
          vision_result := some v, category := some cat, confidence := some conf,
          difficulty := some diff, verified := some ver, tags := tags } }
  | .deleteTagLinks => { st with tagLinks := [] }
  | .linkTag n =>
      { st with tagLinks := if n ∈ st.tagLinks then st.tagLinks else st.tagLinks ++ [n] }
  | .setThumb u => { st with row := { st.row with thumbnail_url := some u } }
  | .visionCall => st
  | .downloadCall => st
  | .sleep _ => st

def runEffs (st : CapState) (effs : List Eff) : CapState :=
  effs.foldl applyEff st

/-- Loop body of process_pending_analyses for one capture id (workers/mod.rs
lines 58-76): on an error surfaced by the pipeline, a transient error leaves
the queue entry untouched and a permanent one increments its attempts
counter. -/
def process_pending_analyses_step (env : WorkerEnv) (st : CapState) : CapState :=
  match analyze_capture env with
  | (.ok _, effs) => runEffs st effs
  | (.error e, effs) =>
    let st1 := runEffs st effs
    if isTransientError e then st1
    else applyEff st1 Eff.incAttempts

/-- Observed vision calls of an effect list. -/
def visionCallCount (effs : List Eff) : ℕ :=
  effs.countP (fun e => match e with | Eff.visionCall => true | _ => false)

/-- Observed download calls of an effect list. -/
def downloadCallCount (effs : List Eff) : ℕ :=
  effs.countP (fun e => match e with | Eff.downloadCall => true | _ => false)

/-- Observed backoff sleeps of an effect list, in order, in seconds. -/
def sleepsOf (effs : List Eff) : List ℕ :=
  effs.filterMap (fun e => match e with | Eff.sleep s => some s | _ => none)

/-! ## Queue query model (database/mod.rs get_pending_analysis)

The analysis_queue table is a list of rows; the query filters on
status = pending and (attempts < 3 or attempts null), orders by created_at
ascending and limits the row count. -/

structure QEntry where
  capture_id : ℕ
  status : String
  attempts : Option ℤ
  created_at : ℕ
deriving DecidableEq

/-- WHERE clause of the query. -/
def eligible (e : QEntry) : Bool :=
  e.status == "pending" &&
    (match e.attempts with
     | some a => decide (a < 3)
     | none => true)

/-- ORDER BY created_at ASC comparison. -/
def qLe (a b : QEntry) : Prop :=
  a.created_at ≤ b.created_at

instance : DecidableRel qLe :=
  fun a b => Nat.decLe a.created_at b.created_at

instance : IsTotal QEntry qLe :=
  ⟨fun a b => Nat.le_total a.created_at b.created_at⟩

instance : IsTrans QEntry qLe :=
  ⟨fun _ _ _ hab hbc => Nat.le_trans hab hbc⟩

/-- Rows produced by the SELECT before projecting the capture_id column. -/
def pendingRows (q : List QEntry) (limit : ℕ) : List QEntry :=
  (List.insertionSort qLe (q.filter eligible)).take limit

/-- Embedding of DatabaseService::get_pending_analysis. -/
def get_pending_analysis (q : List QEntry) (limit : ℕ) : List ℕ :=
  (pendingRows q limit).map QEntry.capture_id

/-! ## Basic interpreter lemmas -/

theorem runEffs_nil (st : CapState) : runEffs st [] = st := rfl

theorem runEffs_cons (st : CapState) (e : Eff) (effs : List Eff) :
    runEffs st (e :: effs) = runEffs (applyEff st e) effs := rfl

theorem runEffs_append (st : CapState) (l1 l2 : List Eff) :
    runEffs st (l1 ++ l2) = runEffs (runEffs st l1) l2 :=
  List.foldl_append applyEff st l1 l2

/-- Vision calls and sleeps are the only effects of the retry loop, and they
do not touch the database state. -/
theorem runEffs_runVision (oracle : ℕ → Except String Json) :
    ∀ (fuel i : ℕ) (st : CapState), runEffs st (runVision oracle i fuel).2 = st := by
  intro fuel
  induction fuel with
  | zero => intro i st; rfl
  | succ fuel ih =>
    intro i st
    simp only [runVision]
    cases h : oracle i with
    | ok v => rfl
    | error e =>
      by_cases ht : (isTransientError e && fuel != 0) = true
      · simp only [ht, if_true]
        rw [runEffs_cons, runEffs_cons]
        exact ih (i + 1) st
      · simp only [ht, if_false]
        rfl

/-- Folding the link effects of a tag list over the state accumulates the
upsert-and-link inserts. -/
def applyLinks (acc : List String) (ts : List String) : List String :=
  ts.foldl (fun a n => if n ∈ a then a else a ++ [n]) acc

theorem runEffs_linkTags (ts : List String) :
    ∀ st : CapState, runEffs st (ts.map Eff.linkTag) =
      { st with tagLinks := applyLinks st.tagLinks ts } := by
  induction ts with
  | nil => intro st; rfl
  | cons t ts ih =>
    intro st
    rw [List.map_cons, runEffs_cons, ih]
    rfl

/-! ## Claim theorems -/

/-- C2: for every latitude, longitude and timestamp, calculate_sun_position
returns exactly the values of the algorithm written in spec section 4.1
(right ascension atan2 applied to cos of the ecliptic longitude and to cos
of the obliquity times sin of the ecliptic longitude, declination by arcsin,
azimuth reflected to 2 pi minus az0 when sin of the hour angle is positive,
both angles converted to degrees), and is_daylight holds exactly when the
elevation in degrees is strictly greater than -6. -/
theorem calculate_sun_position_matches_spec :
    ∀ (lat lon : ℝ) (ts : UtcMoment),
      calculate_sun_position lat lon ts = specCalculateSunPosition lat lon ts ∧
      ((calculate_sun_position lat lon ts).isDaylight ↔
        (calculate_sun_position lat lon ts).elevationDeg > -6.0) := by
  intro lat lon ts
  exact ⟨rfl, Iff.rfl⟩

/-- C4 (code bug): on the five-character response text hello, which contains
no brace pair, the extraction defaults the inclusive slice end to the text
length and panics on the out-of-range slice instead of returning the
malformed-result error; the empty text does reach the error return, and with
a matching brace pair the substring between the first opening and last
closing brace inclusive is handed to the JSON parser. -/
theorem extract_json_no_brace_panics :
    ∀ parse : String → Option Json,
      extract_json_from_text parse "hello" = ExtractOutcome.panicked ∧
      extract_json_from_text parse "" =
        ExtractOutcome.failed "No valid JSON in Gemini response" ∧
      extract_json_from_text parse "a{b}c" =
        (match parse "{b}" with
         | some v => ExtractOutcome.ok v
         | none => ExtractOutcome.failed "Failed to parse JSON") := by
  intro parse
  exact ⟨rfl, rfl, rfl⟩

/-- C9: metadata extraction from the parsed vision document is total (it is
a Lean function) and never errors: a missing or wrong-typed field falls back
to its default (UNKNOWN, 0, EASY, false, empty list), every extracted tag is
non-empty after lower-casing and trimming, and the concrete tag list of the
spec normalizes as stated. -/
theorem extract_metadata_defaults :
    (∀ v : Json,
      ((v.get "category").bind Json.asStr = none → (extract_metadata v).1 = "UNKNOWN") ∧
      ((v.get "confidence").bind Json.asNum = none → (extract_metadata v).2 = 0) ∧
      ((v.get "difficulty").bind Json.asStr = none → extractDifficulty v = "EASY") ∧
      ((v.get "verified").bind Json.asBool = none → extractVerified v = false) ∧
      ((v.get "tags").bind Json.asArray = none → extractTags v = []) ∧
      (∀ s ∈ extractTags v, s ≠ "")) ∧
    extractTags (Json.obj [("tags",
        Json.arr [Json.str "Volcanico ", Json.str "UNESCO", Json.str ""])]) =
      ["volcanico", "unesco"] := by
  constructor
  · intro v
    refine ⟨?_, ?_, ?_, ?_, ?_, ?_⟩
    · intro h; simp [extract_metadata, h]
    · intro h; simp [extract_metadata, h]
    · intro h; simp [extractDifficulty, h]
    · intro h; simp [extractVerified, h]
    · intro h; simp [extractTags, h]
    · intro s hs
      cases h : (v.get "tags").bind Json.asArray with
      | none => simp [extractTags, h] at hs
      | some arr =>
        simp only [extractTags, h, Option.map_some, Option.getD_some] at hs
        have hmem := List.mem_filter.mp hs
        intro hempty
        rw [hempty] at hmem
        exact absurd hmem.2 (by decide)
  · decide

/-- Concrete document used to instantiate the extraction-default theorem: the
recognized fields are absent and the tags array holds one normalizable tag. -/
def demoDoc : Json :=
  Json.obj [("tags", Json.arr [Json.str "Volcanico ", Json.str "UNESCO", Json.str ""])]

theorem extract_metadata_defaults_witness :
    (extract_metadata demoDoc).1 = "UNKNOWN" ∧
    (extract_metadata demoDoc).2 = 0 ∧
    extractDifficulty demoDoc = "EASY" ∧
    extractVerified demoDoc = false ∧
    extractTags (Json.obj []) = [] ∧
    "volcanico" ≠ "" :=
  have h := extract_metadata_defaults.1 demoDoc
  have h0 := extract_metadata_defaults.1 (Json.obj [])
  ⟨h.1 rfl, h.2.1 rfl, h.2.2.1 rfl, h.2.2.2.1 rfl, h0.2.2.2.2.1 rfl,
   h.2.2.2.2.2 "volcanico" (by decide)⟩

/-- C5: every row returned by get_pending_analysis has status pending and an
attempts value below 3 when present; at most limit rows are returned; they
are ordered by created_at ascending; a row with attempts equal to 3 is never
returned regardless of its status; and the returned ids are exactly the
capture_id column of those rows. -/
theorem get_pending_analysis_spec :
    ∀ (q : List QEntry) (limit : ℕ),
      (∀ e ∈ pendingRows q limit,
        e.status = "pending" ∧ ∀ a : ℤ, e.attempts = some a → a < 3) ∧
      (pendingRows q limit).length ≤ limit ∧
      List.Sorted qLe (pendingRows q limit) ∧
      (∀ e : QEntry, e.attempts = some 3 → e ∉ pendingRows q limit) ∧
      get_pending_analysis q limit = (pendingRows q limit).map QEntry.capture_id := by
  intro q limit
  have hmem : ∀ e ∈ pendingRows q limit, eligible e = true := by
    intro e he
    have h1 : e ∈ List.insertionSort qLe (q.filter eligible) :=
      List.take_subset limit _ he
    have h2 : e ∈ q.filter eligible := (List.perm_insertionSort qLe _).subset h1
    exact (List.mem_filter.mp h2).2
  have helig : ∀ e : QEntry, eligible e = true →
      e.status = "pending" ∧ ∀ a : ℤ, e.attempts = some a → a < 3 := by
    intro e he
    have hand := (Bool.and_eq_true _ _).mp he
    refine ⟨(beq_iff_eq.mp hand.1), ?_⟩
    intro a ha
    have h2 := hand.2
    rw [ha] at h2
    exact of_decide_eq_true h2
  refine ⟨fun e he => helig e (hmem e he), ?_, ?_, ?_, rfl⟩
  · exact List.length_take_le limit _
  · have hs : List.Sorted qLe (List.insertionSort qLe (q.filter eligible)) :=
      List.sorted_insertionSort qLe (q.filter eligible)
    exact List.Pairwise.sublist (List.take_sublist limit _) hs
  · intro e ha hin
    have h3 := (helig e (hmem e hin)).2 3 ha
    exact absurd h3 (by omega)

/-- Concrete queue used to instantiate the query theorem: an exhausted
pending entry, a fresh pending entry and a completed entry. -/
def qDemo : List QEntry :=
  [⟨1, "pending", some 3, 0⟩, ⟨2, "pending", some 0, 5⟩, ⟨3, "completed", none, 1⟩]

theorem get_pending_analysis_spec_witness :
    QEntry.status ⟨2, "pending", some 0, 5⟩ = "pending" ∧
    (0 : ℤ) < 3 ∧
    (⟨1, "pending", some 3, 0⟩ : QEntry) ∉ pendingRows qDemo 10 ∧
    (pendingRows qDemo 10).length ≤ 10 ∧
    get_pending_analysis qDemo 10 = (pendingRows qDemo 10).map QEntry.capture_id :=
  have h := get_pending_analysis_spec qDemo 10
  ⟨(h.1 ⟨2, "pending", some 0, 5⟩ (by decide)).1,
   (h.1 ⟨2, "pending", some 0, 5⟩ (by decide)).2 0 rfl,
   h.2.2.2.1 ⟨1, "pending", some 3, 0⟩ rfl,
   h.2.1,
   h.2.2.2.2⟩

/-- Error paths of the analysis body perform no database write: the surfaced
effects are only the download call, vision calls and sleeps. -/
theorem analyzeBody_error_effs :
    ∀ (env : WorkerEnv) (c : Capture) (e : String) (effs : List Eff),
      analyzeBody env c = (.error e, effs) → ∀ st : CapState, runEffs st effs = st := by
  intro env c e effs h st
  unfold analyzeBody at h
  cases hk : extract_object_key c.image_url with
  | error msg => rw [hk] at h; simp at h
  | ok k =>
    rw [hk] at h
    cases hd : env.download with
    | error msg => rw [hd] at h; simp at h
    | ok bytes =>
      rw [hd] at h
      cases hrv : runVision env.vision 0 3 with
      | mk r ve =>
        rw [hrv] at h
        have hve : runEffs st ve = st := by
          have h2 := runEffs_runVision env.vision 3 0 st
          rw [hrv] at h2
          exact h2
        cases r with
        | error e2 =>
          simp only [Prod.mk.injEq, Except.error.injEq] at h
          rw [← h.2]
          rw [runEffs_cons]
          exact hve
        | ok v =>
          by_cases hn : v.isNull = true
          · simp only [hn, if_true, Prod.mk.injEq, Except.error.injEq] at h
            rw [← h.2]
            rw [runEffs_cons]
            exact hve
          · rw [Bool.not_eq_true] at hn
            simp only [hn, Bool.false_eq_true, if_false, Prod.mk.injEq,
              reduceCtorEq, false_and] at h

/-- Errors surfaced by analyze_capture carry no database write. -/
theorem analyze_capture_error_effs :
    ∀ (env : WorkerEnv) (e : String) (effs : List Eff),
      analyze_capture env = (.error e, effs) → ∀ st : CapState, runEffs st effs = st := by
  intro env e effs h st
  unfold analyze_capture at h
  cases hc : env.capture with
  | none => rw [hc] at h; simp at h
  | some c =>
    rw [hc] at h
    cases hv : c.vision_result with
    | some v =>
      simp only [hv] at h
      by_cases ho : v.isObject = true
      · simp only [ho, if_true] at h
        by_cases he : v.objIsEmpty = true
        · simp only [he, if_true] at h
          exact analyzeBody_error_effs env c e effs h st
        · rw [Bool.not_eq_true] at he
          simp only [he, Bool.false_eq_true, if_false] at h
          simp at h
      · rw [Bool.not_eq_true] at ho
        simp only [ho, Bool.false_eq_true, if_false] at h
        simp at h
    | none =>
      simp only [hv] at h
      exact analyzeBody_error_effs env c e effs h st

/-- C3: at the worker-loop level, an error surfaced by the per-capture
pipeline whose text contains 503, overloaded or UNAVAILABLE leaves the queue
entry untouched, while any other surfaced error increments the attempts
counter by one and leaves the status (and the rest of the state) unchanged;
in particular a message containing overloaded is classified transient and
one containing 400 Bad Request is classified permanent. -/
theorem process_step_error_classification :
    ∀ (env : WorkerEnv) (st : CapState) (e : String) (effs : List Eff),
      analyze_capture env = (.error e, effs) →
      ((isTransientError e = true → process_pending_analyses_step env st = st) ∧
       (isTransientError e = false →
         process_pending_analyses_step env st =
           { st with qAttempts := st.qAttempts.map (fun a => a + 1) }) ∧
       (process_pending_analyses_step env st).qStatus = st.qStatus ∧
       (process_pending_analyses_step env st).row = st.row) ∧
      isTransientError "the model is overloaded, please retry" = true ∧
      isTransientError "Gemini API error (400 Bad Request): invalid payload" = false := by
  intro env st e effs h
  have hne := analyze_capture_error_effs env e effs h
  have hstep : process_pending_analyses_step env st =
      (if isTransientError e then st
       else { st with qAttempts := st.qAttempts.map (fun a => a + 1) }) := by
    unfold process_pending_analyses_step
    rw [h]
    show (if isTransientError e then runEffs st effs
      else applyEff (runEffs st effs) Eff.incAttempts) = _
    rw [hne st]
    rfl
  refine ⟨⟨?_, ?_, ?_, ?_⟩, by decide, by decide⟩
  · intro ht; simp [hstep, ht]
  · intro ht; simp [hstep, ht]
  · rw [hstep]
    by_cases ht : isTransientError e = true
    · simp [ht]
    · rw [Bool.not_eq_true] at ht; simp [ht]
  · rw [hstep]
    by_cases ht : isTransientError e = true
    · simp [ht]
    · rw [Bool.not_eq_true] at ht; simp [ht]

/-! ## Concrete demonstration data shared by the witnesses -/

def rowEmpty : CaptureRow := ⟨none, none, none, none, none, none, none⟩

def stDemo : CapState := ⟨QStatus.pending, some 0, rowEmpty, []⟩

def urlDemo : String := "https://bucket.s3.amazonaws.com/captures/123/uuid.jpg"

def capFresh : Capture := ⟨none, urlDemo⟩

def envPerm : WorkerEnv :=
  ⟨some capFresh, .ok [7],
   fun _ => .error "Gemini API error (400 Bad Request): invalid payload",
   .error "no thumbnail"⟩

def envTrans : WorkerEnv :=
  ⟨some capFresh, .ok [7], fun _ => .error "503 Service Unavailable", .error "no thumbnail"⟩

theorem process_step_error_classification_witness :
    process_pending_analyses_step envPerm stDemo = { stDemo with qAttempts := some 1 } ∧
    process_pending_analyses_step envTrans stDemo = stDemo :=
  have h1 := process_step_error_classification envPerm stDemo
    "Gemini API error (400 Bad Request): invalid payload"
    [Eff.downloadCall, Eff.visionCall] rfl
  have h2 := process_step_error_classification envTrans stDemo
    "503 Service Unavailable"
    [Eff.downloadCall, Eff.visionCall, Eff.sleep 5, Eff.visionCall, Eff.sleep 10,
      Eff.visionCall] rfl
  ⟨h1.1.2.1 (by decide), h2.1.1 (by decide)⟩

/-- C6: a capture that already carries a non-empty vision-result object is
marked completed and skipped: the pipeline returns success with the single
markCompleted effect, so no vision call, no download, and no mutation of the
capture row, the attempts counter or the tag links. -/
theorem analyze_capture_idempotency_guard :
    ∀ (env : WorkerEnv) (c : Capture) (v : Json),
      env.capture = some c →
      c.vision_result = some v →
      v.isObject = true →
      v.objIsEmpty = false →
      analyze_capture env = (.ok (), [Eff.markCompleted]) ∧
      ∀ st : CapState,
        runEffs st (analyze_capture env).2 = { st with qStatus := QStatus.completed } := by
  intro env c v hc hv ho he
  have h1 : analyze_capture env = (.ok (), [Eff.markCompleted]) := by
    simp only [analyze_capture, hc, hv, ho, if_true, he, Bool.false_eq_true, if_false]
  exact ⟨h1, fun st => by rw [h1]; rfl⟩

def docNonEmpty : Json := Json.obj [("category", Json.str "X")]

def capDone : Capture := ⟨some docNonEmpty, urlDemo⟩

def envDone : WorkerEnv :=
  ⟨some capDone, .error "never", fun _ => .error "never", .error "never"⟩

theorem analyze_capture_idempotency_guard_witness :
    analyze_capture envDone = (.ok (), [Eff.markCompleted]) ∧
    runEffs stDemo (analyze_capture envDone).2 = { stDemo with qStatus := QStatus.completed } :=
  have h := analyze_capture_idempotency_guard envDone capDone docNonEmpty rfl rfl rfl rfl
  ⟨h.1, h.2 stDemo⟩

/-- C10: a stored vision_result that is present but not a JSON object is
treated as already analyzed (the entry is marked completed with no other
effect, hence no vision call), while a present but empty JSON object is
treated as not yet analyzed and the capture proceeds to the full analysis
body, exactly as when no vision_result is stored. -/
theorem analyze_capture_nonobject_vs_empty_object :
    ∀ (env : WorkerEnv) (c : Capture) (v : Json),
      env.capture = some c →
      ((c.vision_result = some v → v.isObject = false →
        analyze_capture env = (.ok (), [Eff.markCompleted])) ∧
       (c.vision_result = some (Json.obj []) → analyze_capture env = analyzeBody env c) ∧
       (c.vision_result = none → analyze_capture env = analyzeBody env c)) := by
  intro env c v hc
  refine ⟨?_, ?_, ?_⟩
  · intro hv ho
    simp only [analyze_capture, hc, hv, ho, Bool.false_eq_true, if_false]
  · intro hv
    simp only [analyze_capture, hc, hv, Json.isObject, Json.objIsEmpty, List.isEmpty_nil,
      if_true]
  · intro hv
    simp only [analyze_capture, hc, hv]

def capNonObj : Capture := ⟨some (Json.str "done"), urlDemo⟩

def envNonObj : WorkerEnv :=
  ⟨some capNonObj, .error "never", fun _ => .error "never", .error "never"⟩

def capEmptyObj : Capture := ⟨some (Json.obj []), urlDemo⟩

def envEmptyObj : WorkerEnv :=
  ⟨some capEmptyObj, .ok [7], fun _ => .ok docNonEmpty, .error "no thumbnail"⟩

theorem analyze_capture_nonobject_vs_empty_object_witness :
    analyze_capture envNonObj = (.ok (), [Eff.markCompleted]) ∧
    analyze_capture envEmptyObj = analyzeBody envEmptyObj capEmptyObj :=
  have h1 := (analyze_capture_nonobject_vs_empty_object envNonObj capNonObj
    (Json.str "done") rfl).1 rfl rfl
  have h2 := (analyze_capture_nonobject_vs_empty_object envEmptyObj capEmptyObj
    Json.null rfl).2.1 rfl
  ⟨h1, h2⟩

/-- Exhaustive case analysis of the inline retry loop at its actual
parameters (first call index 0, three calls allowed). -/
theorem runVision_three_cases (oracle : ℕ → Except String Json) :
    (∃ v, oracle 0 = .ok v ∧ runVision oracle 0 3 = (.ok v, [Eff.visionCall])) ∨
    (∃ e, oracle 0 = .error e ∧ isTransientError e = false ∧
      runVision oracle 0 3 = (.error e, [Eff.visionCall])) ∨
    (∃ e0 v, oracle 0 = .error e0 ∧ isTransientError e0 = true ∧ oracle 1 = .ok v ∧
      runVision oracle 0 3 = (.ok v, [Eff.visionCall, Eff.sleep 5, Eff.visionCall])) ∨
    (∃ e0 e1, oracle 0 = .error e0 ∧ isTransientError e0 = true ∧
      oracle 1 = .error e1 ∧ isTransientError e1 = false ∧
      runVision oracle 0 3 = (.error e1, [Eff.visionCall, Eff.sleep 5, Eff.visionCall])) ∨
    (∃ e0 e1 v, oracle 0 = .error e0 ∧ isTransientError e0 = true ∧
      oracle 1 = .error e1 ∧ isTransientError e1 = true ∧ oracle 2 = .ok v ∧
      runVision oracle 0 3 = (.ok v,
        [Eff.visionCall, Eff.sleep 5, Eff.visionCall, Eff.sleep 10, Eff.visionCall])) ∨
    (∃ e0 e1 e2, oracle 0 = .error e0 ∧ isTransientError e0 = true ∧
      oracle 1 = .error e1 ∧ isTransientError e1 = true ∧ oracle 2 = .error e2 ∧
      runVision oracle 0 3 = (.error e2,
        [Eff.visionCall, Eff.sleep 5, Eff.visionCall, Eff.sleep 10, Eff.visionCall])) := by
  cases h0 : oracle 0 with
  | ok v =>
    exact Or.inl ⟨v, rfl, by simp [runVision, h0]⟩
  | error e0 =>
    by_cases ht0 : isTransientError e0 = true
    · cases h1 : oracle 1 with
      | ok v =>
        refine Or.inr (Or.inr (Or.inl ⟨e0, v, rfl, ht0, rfl, ?_⟩))
        simp [runVision, h0, ht0, h1]
      | error e1 =>
        by_cases ht1 : isTransientError e1 = true
        · cases h2 : oracle 2 with
          | ok v =>
            refine Or.inr (Or.inr (Or.inr (Or.inr (Or.inl ⟨e0, e1, v, rfl, ht0, rfl, ht1, rfl, ?_⟩))))
            simp [runVision, h0, ht0, h1, ht1, h2]
          | error e2 =>
            refine Or.inr (Or.inr (Or.inr (Or.inr (Or.inr ⟨e0, e1, e2, rfl, ht0, rfl, ht1, rfl, ?_⟩))))
            simp [runVision, h0, ht0, h1, ht1, h2]
        · rw [Bool.not_eq_true] at ht1
          refine Or.inr (Or.inr (Or.inr (Or.inl ⟨e0, e1, rfl, ht0, rfl, ht1, ?_⟩)))
          simp [runVision, h0, ht0, h1, ht1]
    · rw [Bool.not_eq_true] at ht0
      refine Or.inr (Or.inl ⟨e0, rfl, ht0, ?_⟩)
      simp [runVision, h0, ht0]

/-- C7 (amended): within a single per-capture attempt the vision call is
made at most 3 times, only while the failure is classified transient, with
backoff sleeps of 5 then 10 seconds between consecutive calls (the 2 to the
power attempts-minus-one times 5 schedule, whose 20-second value would
belong to a fourth call that is never made); a permanent failure surfaces
its error immediately and exhaustion of the three calls surfaces the last
error. -/
theorem runVision_retry_policy :
    ∀ oracle : ℕ → Except String Json,
      visionCallCount (runVision oracle 0 3).2 ≤ 3 ∧
      (sleepsOf (runVision oracle 0 3).2 = [] ∨
       sleepsOf (runVision oracle 0 3).2 = [5] ∨
       sleepsOf (runVision oracle 0 3).2 = [5, 10]) ∧
      (∀ e, oracle 0 = .error e → isTransientError e = false →
        runVision oracle 0 3 = (.error e, [Eff.visionCall])) ∧
      (∀ e0 e1 e2, oracle 0 = .error e0 → isTransientError e0 = true →
        oracle 1 = .error e1 → isTransientError e1 = true →
        oracle 2 = .error e2 →
        runVision oracle 0 3 = (.error e2,
          [Eff.visionCall, Eff.sleep 5, Eff.visionCall, Eff.sleep 10, Eff.visionCall])) := by
  intro oracle
  refine ⟨?_, ?_, ?_, ?_⟩
  · rcases runVision_three_cases oracle with ⟨v, _, hr⟩ | ⟨e, _, _, hr⟩ |
      ⟨e0, v, _, _, _, hr⟩ | ⟨e0, e1, _, _, _, _, hr⟩ |
      ⟨e0, e1, v, _, _, _, _, _, hr⟩ | ⟨e0, e1, e2, _, _, _, _, _, hr⟩ <;> rw [hr]
    · show visionCallCount [Eff.visionCall] ≤ 3
      decide
    · show visionCallCount [Eff.visionCall] ≤ 3
      decide
    · show visionCallCount [Eff.visionCall, Eff.sleep 5, Eff.visionCall] ≤ 3
      decide
    · show visionCallCount [Eff.visionCall, Eff.sleep 5, Eff.visionCall] ≤ 3
      decide
    · show visionCallCount [Eff.visionCall, Eff.sleep 5, Eff.visionCall,
        Eff.sleep 10, Eff.visionCall] ≤ 3
      decide
    · show visionCallCount [Eff.visionCall, Eff.sleep 5, Eff.visionCall,
        Eff.sleep 10, Eff.visionCall] ≤ 3
      decide
  · rcases runVision_three_cases oracle with ⟨v, _, hr⟩ | ⟨e, _, _, hr⟩ |
      ⟨e0, v, _, _, _, hr⟩ | ⟨e0, e1, _, _, _, _, hr⟩ |
      ⟨e0, e1, v, _, _, _, _, _, hr⟩ | ⟨e0, e1, e2, _, _, _, _, _, hr⟩ <;>
      rw [hr]
    · exact Or.inl rfl
    · exact Or.inl rfl
    · exact Or.inr (Or.inl rfl)
    · exact Or.inr (Or.inl rfl)
    · exact Or.inr (Or.inr rfl)
    · exact Or.inr (Or.inr rfl)
  · intro e h0 hf
    simp [runVision, h0, hf]
  · intro e0 e1 e2 h0 ht0 h1 ht1 h2
    simp [runVision, h0, ht0, h1, ht1, h2]

def oracleBusy : ℕ → Except String Json := fun _ => .error "model overloaded"

theorem runVision_retry_policy_witness :
    runVision envPerm.vision 0 3 =
      (.error "Gemini API error (400 Bad Request): invalid payload", [Eff.visionCall]) ∧
    runVision oracleBusy 0 3 = (.error "model overloaded",
      [Eff.visionCall, Eff.sleep 5, Eff.visionCall, Eff.sleep 10, Eff.visionCall]) ∧
    visionCallCount (runVision oracleBusy 0 3).2 ≤ 3 :=
  have h1 := runVision_retry_policy envPerm.vision
  have h2 := runVision_retry_policy oracleBusy
  ⟨h1.2.2.1 _ rfl (by decide),
   h2.2.2.2 _ _ _ rfl (by decide) rfl (by decide) rfl,
   h2.1⟩

/-- C7 counterexample: when every call fails with a transient 503 error the
retry loop makes exactly three calls and the backoff sleeps performed are 5
and 10 seconds; no 20-second sleep occurs, contrary to the claimed 5s, 10s,
20s schedule. -/
theorem runVision_no_twenty_second_sleep :
    sleepsOf (runVision (fun _ => Except.error "503") 0 3).2 = [5, 10] ∧
    visionCallCount (runVision (fun _ => Except.error "503") 0 3).2 = 3 ∧
    20 ∉ sleepsOf (runVision (fun _ => Except.error "503") 0 3).2 := by
  refine ⟨rfl, rfl, ?_⟩
  decide

/-- C8 (amended): a failing source-image download is swallowed inside the
per-capture pipeline: the pipeline logs it and returns success, so no error
reaches the loop-level classification, the queue entry stays pending and its
attempts counter is not incremented. -/
theorem analyze_capture_download_failure_swallowed :
    ∀ (env : WorkerEnv) (c : Capture) (k msg : String),
      env.capture = some c →
      c.vision_result = none →
      extract_object_key c.image_url = .ok k →
      env.download = .error msg →
      analyze_capture env = (.ok (), [Eff.downloadCall]) ∧
      ∀ st : CapState, process_pending_analyses_step env st = st := by
  intro env c k msg hc hv hk hd
  have h1 : analyze_capture env = (.ok (), [Eff.downloadCall]) := by
    simp only [analyze_capture, analyzeBody, hc, hv, hk, hd]
  refine ⟨h1, fun st => ?_⟩
  unfold process_pending_analyses_step
  rw [h1]
  rfl

def envDownFail : WorkerEnv :=
  ⟨some capFresh, .error "S3 download failed: access denied",
   fun _ => .error "never called", .error "no thumbnail"⟩

theorem analyze_capture_download_failure_swallowed_witness :
    analyze_capture envDownFail = (.ok (), [Eff.downloadCall]) ∧
    process_pending_analyses_step envDownFail stDemo = stDemo :=
  have h := analyze_capture_download_failure_swallowed envDownFail capFresh
    "captures/123/uuid.jpg" "S3 download failed: access denied" rfl rfl rfl rfl
  ⟨h.1, h.2 stDemo⟩

/-- C8 counterexample: on a concrete failing download the pipeline result is
success, not an error, and the loop step leaves the attempts counter at its
old value instead of incrementing it. -/
theorem download_failure_not_counted_permanent :
    (analyze_capture envDownFail).1 = .ok () ∧
    process_pending_analyses_step envDownFail stDemo = stDemo ∧
    (process_pending_analyses_step envDownFail stDemo).qAttempts ≠
      stDemo.qAttempts.map (fun a => a + 1) := by
  refine ⟨rfl, rfl, ?_⟩
  show (some (0 : ℤ) ≠ some 1)
  decide

/-- State reached by interpreting the success-path effects: analysis columns
persisted, entry completed with attempts untouched, tag links replaced only
when the extracted list is non-empty, thumbnail URL written only when the
thumbnail step succeeds. -/
theorem runEffs_successEffs (v : Json) (th : Except String String) (st : CapState) :
    runEffs st (successEffs v th) =
      ⟨QStatus.completed, st.qAttempts,
       ⟨some v, some (extract_metadata v).1, some (extract_metadata v).2,
        some (extractDifficulty v), some (extractVerified v), some (extractTags v),
        (match th with
         | .ok url => some url
         | .error _ => st.row.thumbnail_url)⟩,
       (if (extractTags v).isEmpty then st.tagLinks
        else applyLinks [] (extractTags v))⟩ := by
  cases th with
  | ok url =>
    by_cases htags : (extractTags v).isEmpty = true
    · simp only [successEffs, htags, if_true]
      rfl
    · rw [Bool.not_eq_true] at htags
      simp only [successEffs, save_capture_tags_effs, htags, Bool.false_eq_true, if_false,
        List.cons_append]
      rw [runEffs_cons, runEffs_cons, runEffs_append, runEffs_linkTags]
      rfl
  | error msg =>
    by_cases htags : (extractTags v).isEmpty = true
    · simp only [successEffs, htags, if_true]
      rfl
    · rw [Bool.not_eq_true] at htags
      simp only [successEffs, save_capture_tags_effs, htags, Bool.false_eq_true, if_false,
        List.cons_append]
      rw [runEffs_cons, runEffs_cons, runEffs_append, runEffs_linkTags]
      rfl

/-- C1 (amended): for every capture whose vision analysis succeeds with a
non-null document, the pipeline persists the result document, category,
confidence, difficulty, verified flag and tags column to the capture row and
marks the queue entry completed with its attempts counter unchanged; the tag
associations are replaced (delete-all then upsert-and-link each extracted
tag) only when the extracted tag list is non-empty, and are left untouched
when it is empty; when the thumbnail step also succeeds the thumbnail URL is
set as well. -/
theorem analyze_capture_success_persists :
    ∀ (env : WorkerEnv) (c : Capture) (v : Json) (ve : List Eff) (k : String)
      (bytes : List ℕ) (st : CapState),
      env.capture = some c →
      c.vision_result = none →
      extract_object_key c.image_url = .ok k →
      env.download = .ok bytes →
      runVision env.vision 0 3 = (.ok v, ve) →
      v.isNull = false →
      (analyze_capture env).1 = .ok () ∧
      (runEffs st (analyze_capture env).2).row.vision_result = some v ∧
      (runEffs st (analyze_capture env).2).row.category = some (extract_metadata v).1 ∧
      (runEffs st (analyze_capture env).2).row.confidence = some (extract_metadata v).2 ∧
      (runEffs st (analyze_capture env).2).row.difficulty = some (extractDifficulty v) ∧
      (runEffs st (analyze_capture env).2).row.verified = some (extractVerified v) ∧
      (runEffs st (analyze_capture env).2).row.tags = some (extractTags v) ∧
      (runEffs st (analyze_capture env).2).qStatus = QStatus.completed ∧
      (runEffs st (analyze_capture env).2).qAttempts = st.qAttempts ∧
      (extractTags v ≠ [] →
        (∃ pre post : List Eff,
          (analyze_capture env).2 = pre ++ save_capture_tags_effs (extractTags v) ++ post) ∧
        (runEffs st (analyze_capture env).2).tagLinks = applyLinks [] (extractTags v)) ∧
      (extractTags v = [] →
        (runEffs st (analyze_capture env).2).tagLinks = st.tagLinks) ∧
      (∀ url, env.thumb = .ok url →
        (runEffs st (analyze_capture env).2).row.thumbnail_url = some url) := by
  intro env c v ve k bytes st hc hv hk hd hrv hn
  have h1 : analyze_capture env = (.ok (), Eff.downloadCall :: (ve ++ successEffs v env.thumb)) := by
    simp only [analyze_capture, analyzeBody, hc, hv, hk, hd, hrv, hn, Bool.false_eq_true,
      if_false]
  have hve : ∀ s : CapState, runEffs s ve = s := by
    intro s
    have h2 := runEffs_runVision env.vision 3 0 s
    rw [hrv] at h2
    exact h2
  have hs2 : runEffs st (analyze_capture env).2 = runEffs st (successEffs v env.thumb) := by
    rw [h1, runEffs_cons, runEffs_append, hve]
    rfl
  rw [hs2, runEffs_successEffs]
  refine ⟨by rw [h1], rfl, rfl, rfl, rfl, rfl, rfl, rfl, rfl, ?_, ?_, ?_⟩
  · intro hne
    have htagsF : (extractTags v).isEmpty = false := by
      cases hE : extractTags v with
      | nil => exact absurd hE hne
      | cons a t => rfl
    constructor
    · refine ⟨Eff.downloadCall :: (ve ++ [Eff.updateAnalysis v (extract_metadata v).1
        (extract_metadata v).2 (extractDifficulty v) (extractVerified v)
        (some (extractTags v))]),
        Eff.markCompleted ::
          (match env.thumb with
           | .ok url => [Eff.setThumb url]
           | .error _ => []), ?_⟩
      rw [h1]
      simp only [successEffs, htagsF, Bool.false_eq_true, if_false, List.cons_append,
        List.append_assoc, List.nil_append]
    · simp only [htagsF, Bool.false_eq_true, if_false]
  · intro h0
    simp only [h0, List.isEmpty_nil, if_true]
  · intro url hu
    rw [hu]

def docFull : Json :=
  Json.obj [("category", Json.str "LANDMARK"), ("confidence", Json.num (9 / 10)),
    ("difficulty", Json.str "MEDIUM"), ("verified", Json.bool true),
    ("tags", Json.arr [Json.str "Volcanico ", Json.str "UNESCO"])]

/-- Environment of the end-to-end scenario in the spec: valid capture, first
vision call fails with a 503, second call succeeds, thumbnail succeeds. -/
def envSuccess : WorkerEnv :=
  ⟨some capFresh, .ok [7],
   fun i => if i = 0 then .error "503 Service Unavailable" else .ok docFull,
   .ok "https://bucket.s3.amazonaws.com/thumbnails/123.jpg"⟩

theorem analyze_capture_success_persists_witness :
    (analyze_capture envSuccess).1 = .ok () ∧
    (runEffs stDemo (analyze_capture envSuccess).2).row.category = some "LANDMARK" ∧
    (runEffs stDemo (analyze_capture envSuccess).2).row.verified = some true ∧
    (runEffs stDemo (analyze_capture envSuccess).2).qStatus = QStatus.completed ∧
    (runEffs stDemo (analyze_capture envSuccess).2).qAttempts = some 0 ∧
    (runEffs stDemo (analyze_capture envSuccess).2).tagLinks = ["volcanico", "unesco"] ∧
    (runEffs stDemo (analyze_capture envSuccess).2).row.thumbnail_url =
      some "https://bucket.s3.amazonaws.com/thumbnails/123.jpg" :=
  have h := analyze_capture_success_persists envSuccess capFresh docFull
    [Eff.visionCall, Eff.sleep 5, Eff.visionCall] "captures/123/uuid.jpg" [7] stDemo
    rfl rfl rfl rfl rfl rfl
  ⟨h.1, h.2.2.1, h.2.2.2.2.2.1, h.2.2.2.2.2.2.2.1, h.2.2.2.2.2.2.2.2.1,
   (h.2.2.2.2.2.2.2.2.2.1 (by decide)).2,
   h.2.2.2.2.2.2.2.2.2.2.2 "https://bucket.s3.amazonaws.com/thumbnails/123.jpg" rfl⟩

/-- Environment whose successful vision document carries no tags field. -/
def envNoTags : WorkerEnv :=
  ⟨some capFresh, .ok [7], fun _ => .ok docNonEmpty,
   .ok "https://bucket.s3.amazonaws.com/thumbnails/123.jpg"⟩

/-- State holding a stale tag association from an earlier analysis. -/
def stOld : CapState := ⟨QStatus.pending, some 0, rowEmpty, ["old"]⟩

/-- C1 counterexample: when the successful vision document yields no tags,
the pipeline does not replace the tag associations at all: the stale link
survives, although a delete-all-then-relink with an empty extracted list
would have removed it. -/
theorem success_with_no_tags_keeps_old_links :
    (analyze_capture envNoTags).1 = .ok () ∧
    (runEffs stOld (analyze_capture envNoTags).2).qStatus = QStatus.completed ∧
    (runEffs stOld (analyze_capture envNoTags).2).tagLinks = ["old"] ∧
    (["old"] : List String) ≠ [] := by
  refine ⟨rfl, rfl, rfl, by decide⟩
